import Mathlib

/-!
Verification of the mono-cbp repository: the eclipse-phase utilities of
src/mono_cbp/utils/eclipses.py and the pipeline orchestration of
src/mono_cbp/pipeline/pipeline.py, shallowly embedded in Lean.
Rational numbers stand for Python floats; PyFloat adds the NaN sentinel
that the catalogue uses for an absent eclipse.
-/

/-- A Python float that is either NaN or an actual number.  NaN is the
catalogue sentinel for a missing eclipse position or width. -/
inductive PyFloat where
  | nan : PyFloat
  | num : ℚ → PyFloat
deriving DecidableEq

/-- Embeds time_to_phase of src/mono_cbp/utils/eclipses.py.  The Python
expression ((times - t0) / period) % 1.0 is the fractional part for a
positive divisor, modelled by Int.fract on rationals. -/
def time_to_phase (times period t0 centre : ℚ) : ℚ :=
  let start_phase := centre - 1/2
  let t0' := t0 + start_phase * period
  Int.fract ((times - t0') / period) + start_phase

/-- Indices of the list entries satisfying a predicate; models the
np.where selection over a phases array. -/
def selectIdx (phases : List ℚ) (pred : ℚ → Bool) : List ℕ :=
  (List.range phases.length).filter (fun i => pred (phases.getD i 0))

/-- Embeds get_eclipse_indices of src/mono_cbp/utils/eclipses.py: the NaN
and zero-width sentinel guard, then the three branches on the eclipse
position (wrap past phase 1, wrap past phase 0, no wrap). -/
def get_eclipse_indices (phases : List ℚ) (pos width : PyFloat) : List ℕ :=
  match pos, width with
  | PyFloat.num p, PyFloat.num w =>
    if w = 0 then []
    else if p > 95/100 then
      selectIdx phases (fun x => decide (x ≥ p - w/2) || decide (x ≤ p + w/2 - 1))
    else if p < 5/100 then
      selectIdx phases (fun x => decide (x ≥ p - w/2 + 1) || decide (x ≤ p + w/2))
    else
      selectIdx phases (fun x => decide (x ≥ p - w/2) && decide (x ≤ p + w/2))
  | _, _ => []

/-- Embeds get_eclipse_mask of src/mono_cbp/utils/eclipses.py: a Boolean
sequence of the same length as phases, True exactly on the selected
indices. -/
def get_eclipse_mask (phases : List ℚ) (pos width : PyFloat) : List Bool :=
  let idx := get_eclipse_indices phases pos width
  (List.range phases.length).map (fun i => decide (i ∈ idx))

theorem mem_selectIdx (phases : List ℚ) (pred : ℚ → Bool) (i : ℕ) :
    i ∈ selectIdx phases pred ↔ i < phases.length ∧ pred (phases.getD i 0) = true := by
  simp [selectIdx, List.mem_filter, List.mem_range]

theorem mask_getD (phases : List ℚ) (pos width : PyFloat) (i : ℕ)
    (hi : i < phases.length) :
    (get_eclipse_mask phases pos width).getD i false =
      decide (i ∈ get_eclipse_indices phases pos width) := by
  simp [get_eclipse_mask, List.getD_eq_getElem?_getD, List.getElem?_map,
    List.getElem?_range, hi]

theorem map_false_eq_replicate (l : List ℕ) :
    l.map (fun _ => false) = List.replicate l.length false := by
  induction l with
  | nil => rfl
  | cons a t ih => simp [List.replicate, ih]

/-- C6: time_to_phase equals the fractional part of the shifted, scaled
time plus the phase offset, and for positive period the result lies in
the half-open interval from centre - 1/2 to centre + 1/2. -/
theorem C6_time_to_phase_range (t period t0 centre : ℚ) (hp : 0 < period) :
    time_to_phase t period t0 centre =
      Int.fract ((t - (t0 + (centre - 1/2) * period)) / period) + (centre - 1/2) ∧
    centre - 1/2 ≤ time_to_phase t period t0 centre ∧
    time_to_phase t period t0 centre < centre + 1/2 := by
  refine ⟨rfl, ?_, ?_⟩
  · have h := Int.fract_nonneg ((t - (t0 + (centre - 1/2) * period)) / period)
    unfold time_to_phase
    linarith
  · have h := Int.fract_lt_one ((t - (t0 + (centre - 1/2) * period)) / period)
    unfold time_to_phase
    linarith

theorem C6_witness :
    (0 : ℚ) < 2 ∧
    (time_to_phase 7 2 1 (1/2) =
      Int.fract (((7 : ℚ) - (1 + ((1:ℚ)/2 - 1/2) * 2)) / 2) + ((1:ℚ)/2 - 1/2) ∧
    (1:ℚ)/2 - 1/2 ≤ time_to_phase 7 2 1 (1/2) ∧
    time_to_phase 7 2 1 (1/2) < (1:ℚ)/2 + 1/2) :=
  ⟨by norm_num, C6_time_to_phase_range 7 2 1 (1/2) (by norm_num)⟩

/-- C4: a NaN position, a NaN width or a zero width is the sentinel for
an absent eclipse: get_eclipse_indices returns the empty index list and
get_eclipse_mask an all-False mask of the same length as phases; both
functions are total, so neither raises. -/
theorem C4_nan_or_zero_width_sentinel (phases : List ℚ) (pos width : PyFloat)
    (h : pos = PyFloat.nan ∨ width = PyFloat.nan ∨ width = PyFloat.num 0) :
    get_eclipse_indices phases pos width = [] ∧
    get_eclipse_mask phases pos width = List.replicate phases.length false := by
  have hidx : get_eclipse_indices phases pos width = [] := by
    rcases h with h | h | h
    · subst h; rfl
    · subst h; cases pos <;> rfl
    · subst h; cases pos <;> simp [get_eclipse_indices]
  refine ⟨hidx, ?_⟩
  rw [get_eclipse_mask]
  simp only [hidx, List.not_mem_nil, decide_False]
  rw [map_false_eq_replicate, List.length_range]

theorem C4_witness :
    (PyFloat.nan = PyFloat.nan ∨ PyFloat.num (3:ℚ) = PyFloat.nan ∨
      PyFloat.num (3:ℚ) = PyFloat.num 0) ∧
    (get_eclipse_indices [(1:ℚ)/2, 2/3] PyFloat.nan (PyFloat.num 3) = [] ∧
     get_eclipse_mask [(1:ℚ)/2, 2/3] PyFloat.nan (PyFloat.num 3) =
       List.replicate ([(1:ℚ)/2, 2/3]).length false) :=
  ⟨Or.inl rfl,
   C4_nan_or_zero_width_sentinel [(1:ℚ)/2, 2/3] PyFloat.nan (PyFloat.num 3) (Or.inl rfl)⟩

/-- C3: with a numeric position and a numeric non-zero width, the branch
for pos above 0.95 selects exactly the indices whose phase is at least
pos - width/2 or at most pos + width/2 - 1, and the branch for pos below
0.05 selects exactly those at least pos - width/2 + 1 or at most
pos + width/2; concretely, for pos 0.99 and width 0.1 a sample at phase
0.02 gets mask True and a sample at phase 0.5 gets mask False. -/
theorem C3_wraparound_selection (phases : List ℚ) (p w : ℚ) (i : ℕ)
    (hw : w ≠ 0) (hi : i < phases.length) :
    (p > 95/100 →
      (i ∈ get_eclipse_indices phases (PyFloat.num p) (PyFloat.num w) ↔
        (phases.getD i 0 ≥ p - w/2 ∨ phases.getD i 0 ≤ p + w/2 - 1))) ∧
    (p < 5/100 →
      (i ∈ get_eclipse_indices phases (PyFloat.num p) (PyFloat.num w) ↔
        (phases.getD i 0 ≥ p - w/2 + 1 ∨ phases.getD i 0 ≤ p + w/2))) ∧
    get_eclipse_mask [(2:ℚ)/100, 1/2] (PyFloat.num (99/100)) (PyFloat.num (1/10)) =
      [true, false] := by
  refine ⟨?_, ?_,
    by norm_num [get_eclipse_mask, get_eclipse_indices, selectIdx, List.range_succ]⟩
  · intro hpos
    rw [get_eclipse_indices, if_neg hw, if_pos hpos, mem_selectIdx]
    simp [hi]
  · intro hpos
    have hnotbig : ¬ (p > 95/100) := by linarith
    rw [get_eclipse_indices, if_neg hw, if_neg hnotbig, if_pos hpos, mem_selectIdx]
    simp [hi]

theorem C3_witness :
    ((1:ℚ)/10 ≠ 0) ∧ 0 < ([(94:ℚ)/100]).length ∧
    ((((99:ℚ)/100) > 95/100 →
      (0 ∈ get_eclipse_indices [(94:ℚ)/100] (PyFloat.num (99/100)) (PyFloat.num (1/10)) ↔
        (([(94:ℚ)/100]).getD 0 0 ≥ 99/100 - (1/10)/2 ∨
         ([(94:ℚ)/100]).getD 0 0 ≤ 99/100 + (1/10)/2 - 1))) ∧
    (((99:ℚ)/100) < 5/100 →
      (0 ∈ get_eclipse_indices [(94:ℚ)/100] (PyFloat.num (99/100)) (PyFloat.num (1/10)) ↔
        (([(94:ℚ)/100]).getD 0 0 ≥ 99/100 - (1/10)/2 + 1 ∨
         ([(94:ℚ)/100]).getD 0 0 ≤ 99/100 + (1/10)/2))) ∧
    get_eclipse_mask [(2:ℚ)/100, 1/2] (PyFloat.num (99/100)) (PyFloat.num (1/10)) =
      [true, false]) :=
  ⟨by norm_num, by decide,
   C3_wraparound_selection [(94:ℚ)/100] (99/100) (1/10) 0 (by norm_num) (by decide)⟩

/-- C9: at exactly pos 0.95 and exactly pos 0.05 the wraparound branches
are not taken; the no-wrap rule applies, selecting exactly the indices
whose phase lies between pos - width/2 and pos + width/2. -/
theorem C9_boundary_no_wrap (phases : List ℚ) (w : ℚ) (i : ℕ)
    (hw : w ≠ 0) (hi : i < phases.length) :
    (i ∈ get_eclipse_indices phases (PyFloat.num (95/100)) (PyFloat.num w) ↔
      ((95:ℚ)/100 - w/2 ≤ phases.getD i 0 ∧ phases.getD i 0 ≤ 95/100 + w/2)) ∧
    (i ∈ get_eclipse_indices phases (PyFloat.num (5/100)) (PyFloat.num w) ↔
      ((5:ℚ)/100 - w/2 ≤ phases.getD i 0 ∧ phases.getD i 0 ≤ 5/100 + w/2)) := by
  constructor
  · rw [get_eclipse_indices, if_neg hw, if_neg (by norm_num), if_neg (by norm_num),
      mem_selectIdx]
    simp [hi, and_comm]
  · rw [get_eclipse_indices, if_neg hw, if_neg (by norm_num), if_neg (by norm_num),
      mem_selectIdx]
    simp [hi, and_comm]

theorem C9_witness :
    ((1:ℚ)/10 ≠ 0) ∧ 0 < ([(95:ℚ)/100]).length ∧
    ((0 ∈ get_eclipse_indices [(95:ℚ)/100] (PyFloat.num (95/100)) (PyFloat.num (1/10)) ↔
      ((95:ℚ)/100 - (1/10)/2 ≤ ([(95:ℚ)/100]).getD 0 0 ∧
       ([(95:ℚ)/100]).getD 0 0 ≤ 95/100 + (1/10)/2)) ∧
    (0 ∈ get_eclipse_indices [(95:ℚ)/100] (PyFloat.num (5/100)) (PyFloat.num (1/10)) ↔
      ((5:ℚ)/100 - (1/10)/2 ≤ ([(95:ℚ)/100]).getD 0 0 ∧
       ([(95:ℚ)/100]).getD 0 0 ≤ 5/100 + (1/10)/2))) :=
  ⟨by norm_num, by decide,
   C9_boundary_no_wrap [(95:ℚ)/100] (1/10) 0 (by norm_num) (by decide)⟩

/-- C5 as stated is false at width zero: with pos 1/2, width 0 and a
sample exactly at phase 1/2, the sample lies in the closed interval
claimed to be marked True, yet the zero-width sentinel makes the mask
all-False. -/
theorem C5_counterexample :
    ¬ (((get_eclipse_mask [(1:ℚ)/2] (PyFloat.num (1/2)) (PyFloat.num 0)).getD 0 false = true) ↔
        ((1:ℚ)/2 - 0/2 ≤ (1:ℚ)/2 ∧ (1:ℚ)/2 ≤ (1:ℚ)/2 + 0/2)) := by
  norm_num [get_eclipse_mask, get_eclipse_indices, selectIdx, List.range_succ]

/-- C5 amended: for pos strictly between 0.05 and 0.95 and width
strictly positive, the mask is True exactly on the samples whose phase
lies in the closed interval from pos - width/2 to pos + width/2, with no
wraparound. -/
theorem C5_interval_mask (phases : List ℚ) (p w : ℚ)
    (h1 : 5/100 < p) (h2 : p < 95/100) (hw : 0 < w) :
    ∀ i, i < phases.length →
      ((get_eclipse_mask phases (PyFloat.num p) (PyFloat.num w)).getD i false = true ↔
        (p - w/2 ≤ phases.getD i 0 ∧ phases.getD i 0 ≤ p + w/2)) := by
  intro i hi
  rw [mask_getD phases _ _ i hi, decide_eq_true_eq,
    get_eclipse_indices, if_neg (by linarith), if_neg (by linarith), if_neg (by linarith),
    mem_selectIdx]
  simp [hi, and_comm]

theorem C5_witness :
    ((5:ℚ)/100 < 1/2) ∧ ((1:ℚ)/2 < 95/100) ∧ ((0:ℚ) < 1/10) ∧
    (∀ i, i < ([(1:ℚ)/2, 9/10]).length →
      ((get_eclipse_mask [(1:ℚ)/2, 9/10] (PyFloat.num (1/2)) (PyFloat.num (1/10))).getD i false = true ↔
        ((1:ℚ)/2 - (1/10)/2 ≤ ([(1:ℚ)/2, 9/10]).getD i 0 ∧
         ([(1:ℚ)/2, 9/10]).getD i 0 ≤ 1/2 + (1/10)/2))) :=
  ⟨by norm_num, by norm_num, by norm_num,
   C5_interval_mask [(1:ℚ)/2, 9/10] (1/2) (1/10) (by norm_num) (by norm_num) (by norm_num)⟩

/-! ## Pipeline orchestration, embedded from src/mono_cbp/pipeline/pipeline.py.

The external collaborators (EclipseMasker, TransitFinder, ModelComparator,
TransitInjector) are not part of the repository sources; the orchestrator
treats them as black boxes, so their outputs are supplied by an Env value.
Tables and snippets are abstracted to natural-number tags. -/

/-- Output table of a stage collaborator, abstracted. -/
abbrev Table := Nat

/-- One in-memory event snippet, abstracted. -/
abbrev Snippet := Nat

/-- The input the vetting stage resolved: either an in-memory snippet
list passed to the model comparator, or a snippet directory read from
disk. -/
inductive VetSource where
  | inMemory (snippets : List Snippet)
  | fileBased (dir : String)
deriving DecidableEq

/-- A value stored in the results registry, tagged by the stage that
produced it; the vetting entry records which input source was used. -/
inductive StageResult where
  | transitTable (t : Table)
  | vetTable (src : VetSource) (t : Table)
  | injTable (t : Table)
deriving DecidableEq

/-- Lookup in the results registry, modelled as an association list with
Python dict semantics (insertion order, update in place). -/
def getKey : List (String × StageResult) → String → Option StageResult
  | [], _ => none
  | kv :: rest, k => if kv.1 = k then some kv.2 else getKey rest k

/-- Whether a key is present in the registry. -/
def hasKey (r : List (String × StageResult)) (k : String) : Bool :=
  (getKey r k).isSome

/-- Replace the value stored under an existing key, keeping order. -/
def setEntry (k0 : String) (v : StageResult) :
    List (String × StageResult) → List (String × StageResult)
  | [] => []
  | kv :: rest => (if kv.1 = k0 then (k0, v) else kv) :: setEntry k0 v rest

/-- Python dict assignment: update the key in place when present,
otherwise append it at the end. -/
def setKey (r : List (String × StageResult)) (k0 : String) (v : StageResult) :
    List (String × StageResult) :=
  if hasKey r k0 then setEntry k0 v r else r ++ [(k0, v)]

theorem getKey_setEntry_ne (r : List (String × StageResult)) (k0 k : String)
    (v : StageResult) (h : k ≠ k0) :
    getKey (setEntry k0 v r) k = getKey r k := by
  induction r with
  | nil => rfl
  | cons kv rest ih =>
      by_cases h1 : kv.1 = k0
      · simp [setEntry, h1, getKey, Ne.symm h, ih]
      · simp only [setEntry, if_neg h1, getKey, ih]

theorem getKey_append_ne (r : List (String × StageResult)) (k0 k : String)
    (v : StageResult) (h : k ≠ k0) :
    getKey (r ++ [(k0, v)]) k = getKey r k := by
  induction r with
  | nil => simp [getKey, Ne.symm h]
  | cons kv rest ih => by_cases h1 : kv.1 = k <;> simp [getKey, h1, ih]

theorem getKey_setKey_ne (r : List (String × StageResult)) (k0 k : String)
    (v : StageResult) (h : k ≠ k0) :
    getKey (setKey r k0 v) k = getKey r k := by
  by_cases hk : hasKey r k0 <;>
    simp only [setKey, hk, if_true, if_false, Bool.false_eq_true, ite_true, ite_false,
      getKey_setEntry_ne r k0 k v h, getKey_append_ne r k0 k v h]

theorem getKey_setEntry_self (r : List (String × StageResult)) (k0 : String)
    (v : StageResult) (h : (getKey r k0).isSome = true) :
    getKey (setEntry k0 v r) k0 = some v := by
  induction r with
  | nil => simp [getKey] at h
  | cons kv rest ih =>
      by_cases h1 : kv.1 = k0
      · simp [setEntry, h1, getKey]
      · have h' : (getKey rest k0).isSome = true := by
          simpa [getKey, h1] using h
        simp only [setEntry, if_neg h1, getKey, ih h', if_neg h1]

theorem getKey_append_self (r : List (String × StageResult)) (k0 : String)
    (v : StageResult) (h : getKey r k0 = none) :
    getKey (r ++ [(k0, v)]) k0 = some v := by
  induction r with
  | nil => simp [getKey]
  | cons kv rest ih =>
      by_cases h1 : kv.1 = k0
      · simp [getKey, h1] at h
      · have h' : getKey rest k0 = none := by simpa [getKey, h1] using h
        simp only [List.cons_append, getKey, if_neg h1]
        exact ih h'

theorem getKey_setKey_self (r : List (String × StageResult)) (k0 : String)
    (v : StageResult) : getKey (setKey r k0 v) k0 = some v := by
  by_cases hk : hasKey r k0
  · simp only [setKey, hk, if_true]
    exact getKey_setEntry_self r k0 v hk
  · simp only [setKey, hk, Bool.false_eq_true, if_false]
    exact getKey_append_self r k0 v (by
      rcases h : getKey r k0 with _ | w
      · rfl
      · exact absurd (by simp [hasKey, h]) hk)

/-- State of a MonoCBPPipeline instance: the directories, whether the
optional TransitInjector collaborator was constructed, the in-memory
event snippets held by the TransitFinder collaborator, and the results
registry. -/
structure MonoCBPPipeline where
  data_dir : String
  output_dir : String
  transit_injector : Bool
  finder_snippets : List Snippet
  results : List (String × StageResult)

/-- Outputs of the external stage collaborators, which are outside the
repository sources: the transit event table, the event snippets the
finder holds after a search, the vetting table as a function of the
resolved input, and the injection table. -/
structure Env where
  transitTable : Table
  finderSnippetsAfter : List Snippet
  vetTable : VetSource → Table
  injTable : Table

/-- The keyword arguments of run that matter to vetting input
resolution: the outer Option models key presence in the
vet_candidates_kwargs dict, the inner Option a possibly-None value. -/
structure RunKwargs where
  vet_event_snippets : Option (Option (List Snippet))
  vet_event_snippets_dir : Option String

/-- Events observed during run: stage executions in order, and the
logged warning when injection-retrieval is requested without an
injector. -/
inductive Stage where
  | masking
  | transitFinding
  | vetting
  | injectionRetrieval
deriving DecidableEq

inductive RunEvent where
  | stage (s : Stage)
  | warnInjectionSkipped
deriving DecidableEq

/-- Embeds MonoCBPPipeline.__init__: the injector exists only when a
truthy transit_models_path was given, the registry starts empty. -/
def MonoCBPPipeline.mk_init (data_dir output_dir : String)
    (transit_models_path : Option String) : MonoCBPPipeline :=
  { data_dir := data_dir
    output_dir := output_dir
    transit_injector :=
      match transit_models_path with
      | some s => !s.isEmpty
      | none => false
    finder_snippets := []
    results := [] }

/-- Embeds MonoCBPPipeline.find_transits: the TransitFinder collaborator
processes the data directory, updating its own in-memory snippet state
and returning the event table. -/
def MonoCBPPipeline.find_transits (p : MonoCBPPipeline) (env : Env) :
    MonoCBPPipeline × Table :=
  ({ p with finder_snippets := env.finderSnippetsAfter }, env.transitTable)

/-- Embeds MonoCBPPipeline.vet_candidates: an in-memory snippet list, if
supplied, takes precedence; otherwise the stage reads the snippet
directory, defaulting to output_dir/event_snippets. -/
def MonoCBPPipeline.vet_candidates (p : MonoCBPPipeline) (env : Env)
    (event_snippets : Option (List Snippet)) (event_snippets_dir : Option String) :
    VetSource × Table :=
  match event_snippets with
  | some s => (VetSource.inMemory s, env.vetTable (VetSource.inMemory s))
  | none =>
      let dir :=
        match event_snippets_dir with
        | some d => d
        | none => p.output_dir ++ ("/event_snippets")
      (VetSource.fileBased dir, env.vetTable (VetSource.fileBased dir))

/-- Embeds MonoCBPPipeline.run_injection_retrieval: a hard configuration
error when the TransitInjector was not constructed, otherwise the
injection table. -/
def MonoCBPPipeline.run_injection_retrieval (p : MonoCBPPipeline) (env : Env) :
    Except String Table :=
  if p.transit_injector then Except.ok env.injTable
  else Except.error ("Transit injector not initialized - provide transit_models_path")

/-- Embeds MonoCBPPipeline.run: masking always first; transit finding
when requested; vetting when requested and transit finding ran, with the
finder snippets injected into the vetting kwargs when non-empty and the
caller did not supply the key; injection-retrieval skipped with a logged
warning when the injector is missing. -/
def MonoCBPPipeline.run (p : MonoCBPPipeline) (env : Env)
    (find_transits vet_candidates injection_retrieval : Bool)
    (kwargs : RunKwargs) :
    Except String (MonoCBPPipeline × List RunEvent) :=
  let ev0 : List RunEvent := [RunEvent.stage Stage.masking]
  let s2 : MonoCBPPipeline × List RunEvent :=
    if find_transits then
      let fr := p.find_transits env
      ({ fr.1 with
          results := setKey fr.1.results ("transit_finding") (StageResult.transitTable fr.2) },
        ev0 ++ [RunEvent.stage Stage.transitFinding])
    else (p, ev0)
  let s3 : MonoCBPPipeline × List RunEvent :=
    if vet_candidates ∧ find_transits then
      let event_snippets := s2.1.finder_snippets
      let vetArg : Option (List Snippet) :=
        if 0 < event_snippets.length ∧ kwargs.vet_event_snippets = none then
          some event_snippets
        else (kwargs.vet_event_snippets).getD none
      let vr := s2.1.vet_candidates env vetArg kwargs.vet_event_snippets_dir
      ({ s2.1 with
          results := setKey s2.1.results ("vetting") (StageResult.vetTable vr.1 vr.2) },
        s2.2 ++ [RunEvent.stage Stage.vetting])
    else s2
  if injection_retrieval then
    if s3.1.transit_injector then
      match s3.1.run_injection_retrieval env with
      | Except.ok t =>
          Except.ok ({ s3.1 with
              results := setKey s3.1.results ("injection_retrieval") (StageResult.injTable t) },
            s3.2 ++ [RunEvent.stage Stage.injectionRetrieval])
      | Except.error e => Except.error e
    else
      Except.ok (s3.1, s3.2 ++ [RunEvent.warnInjectionSkipped])
  else
    Except.ok (s3.1, s3.2)

/-- C1: run always performs eclipse masking first, runs transit finding
and stores a transit_finding entry iff find_transits, and runs vetting
and stores a vetting entry iff both vet_candidates and find_transits; in
particular run with find_transits false and vet_candidates true leaves
no vetting key in a fresh registry. -/
theorem C1_run_stage_gating (p : MonoCBPPipeline) (env : Env)
    (ft vc ir : Bool) (kwargs : RunKwargs) (hfresh : p.results = []) :
    ∃ p' ev, p.run env ft vc ir kwargs = Except.ok (p', ev) ∧
      ev.head? = some (RunEvent.stage Stage.masking) ∧
      ((RunEvent.stage Stage.transitFinding ∈ ev) ↔ ft = true) ∧
      hasKey p'.results ("transit_finding") = ft ∧
      ((RunEvent.stage Stage.vetting ∈ ev) ↔ (vc = true ∧ ft = true)) ∧
      hasKey p'.results ("vetting") = (vc && ft) := by
  obtain ⟨dd, od, inj, fs, res⟩ := p
  simp only [MonoCBPPipeline.results] at hfresh
  subst hfresh
  cases ft <;> cases vc <;> cases ir <;> cases inj <;>
    simp [MonoCBPPipeline.run, MonoCBPPipeline.find_transits,
      MonoCBPPipeline.vet_candidates, MonoCBPPipeline.run_injection_retrieval,
      setKey, setEntry, getKey, hasKey] <;>
    exact ⟨_, _, ⟨rfl, rfl⟩, by simp [getKey]⟩

/-- A concrete pipeline with an injector, fresh registry. -/
def pipeA : MonoCBPPipeline :=
  { data_dir := ("./data")
    output_dir := ("./results")
    transit_injector := true
    finder_snippets := []
    results := [] }

/-- A concrete pipeline without an injector, fresh registry. -/
def pipeB : MonoCBPPipeline :=
  { pipeA with transit_injector := false }

/-- A concrete collaborator environment whose finder leaves one snippet. -/
def envA : Env :=
  { transitTable := 1
    finderSnippetsAfter := [5]
    vetTable := fun _ => 2
    injTable := 3 }

/-- A concrete collaborator environment whose finder leaves no snippets. -/
def envB : Env :=
  { envA with finderSnippetsAfter := [] }

/-- Concrete run kwargs supplying no vetting arguments. -/
def kwargsA : RunKwargs :=
  { vet_event_snippets := none
    vet_event_snippets_dir := none }

theorem C1_witness :
    pipeA.results = [] ∧
    (∃ p' ev, pipeA.run envA false true false kwargsA = Except.ok (p', ev) ∧
      ev.head? = some (RunEvent.stage Stage.masking) ∧
      ((RunEvent.stage Stage.transitFinding ∈ ev) ↔ false = true) ∧
      hasKey p'.results ("transit_finding") = false ∧
      ((RunEvent.stage Stage.vetting ∈ ev) ↔ (true = true ∧ false = true)) ∧
      hasKey p'.results ("vetting") = (true && false)) :=
  ⟨rfl, C1_run_stage_gating pipeA envA false true false kwargsA rfl⟩

/-- C2: with no injector constructed, a direct call to
run_injection_retrieval is a hard configuration error, while the
top-level run with injection_retrieval requested completes, records the
warning event, and leaves no injection_retrieval key. -/
theorem C2_injector_missing_semantics (p : MonoCBPPipeline) (env : Env)
    (ft vc : Bool) (kwargs : RunKwargs)
    (hinj : p.transit_injector = false)
    (hno : hasKey p.results ("injection_retrieval") = false) :
    p.run_injection_retrieval env =
      Except.error ("Transit injector not initialized - provide transit_models_path") ∧
    ∃ p' ev, p.run env ft vc true kwargs = Except.ok (p', ev) ∧
      RunEvent.warnInjectionSkipped ∈ ev ∧
      hasKey p'.results ("injection_retrieval") = false := by
  obtain ⟨dd, od, inj, fs, res⟩ := p
  simp only [MonoCBPPipeline.transit_injector] at hinj
  subst hinj
  have hno' : getKey res ("injection_retrieval") = none := by
    cases h : getKey res ("injection_retrieval") with
    | none => rfl
    | some w => simp only [hasKey, MonoCBPPipeline.results, h] at hno; simp at hno
  refine ⟨by simp [MonoCBPPipeline.run_injection_retrieval], ?_⟩
  cases ft <;> cases vc <;>
    simp [MonoCBPPipeline.run, MonoCBPPipeline.find_transits,
      MonoCBPPipeline.vet_candidates, MonoCBPPipeline.run_injection_retrieval] <;>
    exact ⟨_, _, ⟨rfl, rfl⟩, by simp, by simp [hasKey, getKey_setKey_ne, hno']⟩

theorem C2_witness :
    pipeB.transit_injector = false ∧
    hasKey pipeB.results ("injection_retrieval") = false ∧
    (pipeB.run_injection_retrieval envA =
      Except.error ("Transit injector not initialized - provide transit_models_path") ∧
    ∃ p' ev, pipeB.run envA true true true kwargsA = Except.ok (p', ev) ∧
      RunEvent.warnInjectionSkipped ∈ ev ∧
      hasKey p'.results ("injection_retrieval") = false) :=
  ⟨rfl, rfl, C2_injector_missing_semantics pipeB envA true true kwargsA rfl rfl⟩

/-- C7: the vetting stage of run resolves its input by priority: an
explicitly supplied snippet list wins; otherwise the finder snippets,
when non-empty, are passed in memory; otherwise vetting is file-based on
a directory defaulting to output_dir/event_snippets. -/
theorem C7_vet_input_resolution (p : MonoCBPPipeline) (env : Env)
    (ir : Bool) (kwargs : RunKwargs) (hfresh : p.results = []) :
    ∃ p' ev, p.run env true true ir kwargs = Except.ok (p', ev) ∧
      (∀ s, kwargs.vet_event_snippets = some (some s) →
        ∃ t, getKey p'.results ("vetting") =
          some (StageResult.vetTable (VetSource.inMemory s) t)) ∧
      (kwargs.vet_event_snippets = none → 0 < env.finderSnippetsAfter.length →
        ∃ t, getKey p'.results ("vetting") =
          some (StageResult.vetTable (VetSource.inMemory env.finderSnippetsAfter) t)) ∧
      (kwargs.vet_event_snippets = none → env.finderSnippetsAfter = [] →
        kwargs.vet_event_snippets_dir = none →
        ∃ t, getKey p'.results ("vetting") =
          some (StageResult.vetTable
            (VetSource.fileBased (p.output_dir ++ ("/event_snippets"))) t)) := by
  obtain ⟨dd, od, inj, fs, res⟩ := p
  obtain ⟨et, fsa, vt, it⟩ := env
  obtain ⟨ks, kd⟩ := kwargs
  simp only [MonoCBPPipeline.results] at hfresh
  subst hfresh
  cases ir <;> cases inj <;> rcases ks with _ | ⟨_ | s⟩ <;> rcases fsa with _ | ⟨a, as⟩ <;>
    rcases kd with _ | d <;>
    simp [MonoCBPPipeline.run, MonoCBPPipeline.find_transits,
      MonoCBPPipeline.vet_candidates, MonoCBPPipeline.run_injection_retrieval,
      setKey, setEntry, getKey, hasKey]

theorem C7_witness :
    pipeA.results = [] ∧
    (∃ p' ev, pipeA.run envB true true false kwargsA = Except.ok (p', ev) ∧
      (∀ s, kwargsA.vet_event_snippets = some (some s) →
        ∃ t, getKey p'.results ("vetting") =
          some (StageResult.vetTable (VetSource.inMemory s) t)) ∧
      (kwargsA.vet_event_snippets = none → 0 < envB.finderSnippetsAfter.length →
        ∃ t, getKey p'.results ("vetting") =
          some (StageResult.vetTable (VetSource.inMemory envB.finderSnippetsAfter) t)) ∧
      (kwargsA.vet_event_snippets = none → envB.finderSnippetsAfter = [] →
        kwargsA.vet_event_snippets_dir = none →
        ∃ t, getKey p'.results ("vetting") =
          some (StageResult.vetTable
            (VetSource.fileBased (pipeA.output_dir ++ ("/event_snippets"))) t))) :=
  ⟨rfl, C7_vet_input_resolution pipeA envB false kwargsA rfl⟩

/-- C10: an explicitly supplied empty snippet list is vetted in memory
with zero candidates, never falling back to files; an absent snippet
argument triggers the file-based fallback; and when the finder holds no
snippets, run omits the argument so that vetting is file-based. -/
theorem C10_empty_vs_absent_snippets (p : MonoCBPPipeline) (env : Env)
    (d : Option String) (kwargs : RunKwargs) (ir : Bool)
    (hfresh : p.results = [])
    (hempty : env.finderSnippetsAfter = [])
    (hnokey : kwargs.vet_event_snippets = none)
    (hnodir : kwargs.vet_event_snippets_dir = none) :
    (p.vet_candidates env (some []) d).1 = VetSource.inMemory [] ∧
    (p.vet_candidates env none none).1 =
      VetSource.fileBased (p.output_dir ++ ("/event_snippets")) ∧
    ∃ p' ev t, p.run env true true ir kwargs = Except.ok (p', ev) ∧
      getKey p'.results ("vetting") =
        some (StageResult.vetTable
          (VetSource.fileBased (p.output_dir ++ ("/event_snippets"))) t) := by
  obtain ⟨dd, od, inj, fs, res⟩ := p
  obtain ⟨et, fsa, vt, it⟩ := env
  obtain ⟨ks, kd⟩ := kwargs
  simp only [MonoCBPPipeline.results] at hfresh
  simp only [Env.finderSnippetsAfter] at hempty
  simp only [RunKwargs.vet_event_snippets] at hnokey
  simp only [RunKwargs.vet_event_snippets_dir] at hnodir
  subst hfresh; subst hempty; subst hnokey; subst hnodir
  refine ⟨rfl, rfl, ?_⟩
  cases ir <;> cases inj <;>
    simp [MonoCBPPipeline.run, MonoCBPPipeline.find_transits,
      MonoCBPPipeline.vet_candidates, MonoCBPPipeline.run_injection_retrieval,
      setKey, setEntry, getKey, hasKey]

theorem C10_witness :
    pipeA.results = [] ∧ envB.finderSnippetsAfter = [] ∧
    kwargsA.vet_event_snippets = none ∧ kwargsA.vet_event_snippets_dir = none ∧
    ((pipeA.vet_candidates envB (some []) none).1 = VetSource.inMemory [] ∧
    (pipeA.vet_candidates envB none none).1 =
      VetSource.fileBased (pipeA.output_dir ++ ("/event_snippets")) ∧
    ∃ p' ev t, pipeA.run envB true true false kwargsA = Except.ok (p', ev) ∧
      getKey p'.results ("vetting") =
        some (StageResult.vetTable
          (VetSource.fileBased (pipeA.output_dir ++ ("/event_snippets"))) t)) :=
  ⟨rfl, rfl, rfl, rfl,
   C10_empty_vs_absent_snippets pipeA envB none kwargsA false rfl rfl rfl rfl⟩

theorem hasKey_setKey_mono (r : List (String × StageResult)) (k0 : String)
    (v : StageResult) (k : String) (h : hasKey r k = true) :
    hasKey (setKey r k0 v) k = true := by
  by_cases hk : k = k0
  · subst hk; simp [hasKey, getKey_setKey_self]
  · simpa [hasKey, getKey_setKey_ne r k0 k v hk] using h

/-- C8: the results registry starts empty at construction, run never
removes a key, and an entry changes only when its own stage executed in
that run; hence entries of prior calls persist in the returned registry. -/
theorem C8_registry_append_only (p : MonoCBPPipeline) (env : Env)
    (ft vc ir : Bool) (kwargs : RunKwargs) :
    (∀ dd od tm, (MonoCBPPipeline.mk_init dd od tm).results = []) ∧
    ∃ p' ev, p.run env ft vc ir kwargs = Except.ok (p', ev) ∧
      (∀ k, hasKey p.results k = true → hasKey p'.results k = true) ∧
      (∀ k, getKey p'.results k ≠ getKey p.results k →
        (k = ("transit_finding") ∧ RunEvent.stage Stage.transitFinding ∈ ev) ∨
        (k = ("vetting") ∧ RunEvent.stage Stage.vetting ∈ ev) ∨
        (k = ("injection_retrieval") ∧ RunEvent.stage Stage.injectionRetrieval ∈ ev)) := by
  refine ⟨fun dd od tm => rfl, ?_⟩
  obtain ⟨dd, od, inj, fs, res⟩ := p
  cases ft <;> cases vc <;> cases ir <;> cases inj <;>
    simp only [MonoCBPPipeline.run, MonoCBPPipeline.find_transits,
      MonoCBPPipeline.vet_candidates, MonoCBPPipeline.run_injection_retrieval,
      MonoCBPPipeline.results, MonoCBPPipeline.transit_injector,
      MonoCBPPipeline.finder_snippets, if_true, if_false, Bool.false_eq_true,
      ite_true, ite_false, and_true, and_false, if_neg, Bool.and_self] <;>
    refine ⟨_, _, rfl, fun k h => ?_, fun k h => ?_⟩ <;>
    first
      | (solve
          | exact h
          | exact hasKey_setKey_mono _ _ _ _ h
          | exact hasKey_setKey_mono _ _ _ _ (hasKey_setKey_mono _ _ _ _ h)
          | exact hasKey_setKey_mono _ _ _ _
              (hasKey_setKey_mono _ _ _ _ (hasKey_setKey_mono _ _ _ _ h)))
      | (by_cases h1 : k = ("transit_finding") <;>
         by_cases h2 : k = ("vetting") <;>
         by_cases h3 : k = ("injection_retrieval") <;>
         simp_all [getKey_setKey_ne])

theorem C8_witness :
    (∀ dd od tm, (MonoCBPPipeline.mk_init dd od tm).results = []) ∧
    ∃ p' ev, pipeA.run envA true true true kwargsA = Except.ok (p', ev) ∧
      (∀ k, hasKey pipeA.results k = true → hasKey p'.results k = true) ∧
      (∀ k, getKey p'.results k ≠ getKey pipeA.results k →
        (k = ("transit_finding") ∧ RunEvent.stage Stage.transitFinding ∈ ev) ∨
        (k = ("vetting") ∧ RunEvent.stage Stage.vetting ∈ ev) ∨
        (k = ("injection_retrieval") ∧ RunEvent.stage Stage.injectionRetrieval ∈ ev)) :=
  C8_registry_append_only pipeA envA true true true kwargsA
